import Mathlib

/-!
Verification of the ingestion-and-partitioning pipeline of
`src/import_planilhas_mysql.py` (spreadsheet-to-MySQL importer).

The Python program is shallowly embedded: pandas DataFrames become lists of
rows over optional text cells (a `none` cell models a pandas missing value,
NaN); the behavior of external library calls (pandas parsing, SQLAlchemy
writes) is modelled by explicit data carried in the `File` and `Store`
structures, while every decision made by the repository's own code (extension
dispatch, exception scopes, the skipped-line accounting, column pruning,
discriminant normalization, groupby partitioning, name sanitization) is
translated line by line.
-/

/-- A pandas cell: `none` is a missing value (NaN), `some s` is the text `s`
(the reader uses `dtype=str`, so present cells are text). -/
abbrev Cell := Option String

/-- A row: the list of cells, in column order. -/
abbrev Row := List Cell

/-- A pandas DataFrame as used by the script: ordered column names and an
ordered list of rows. -/
structure DataFrame where
  cols : List String
  rows : List Row
deriving DecidableEq, Repr

/-- pandas `df.empty`: true when the frame has zero rows or zero columns. -/
def DataFrame.empty (df : DataFrame) : Bool :=
  df.rows.isEmpty || df.cols.isEmpty

/-- Python whitespace characters stripped by `str.strip()` (ASCII subset). -/
def isPySpace (c : Char) : Bool :=
  c == ' ' || c == '\t' || c == '\n' || c == '\r' || c == '\x0b' || c == '\x0c'

/-- Python `str.strip()` on a character list: drop whitespace at both ends. -/
def pyStrip (cs : List Char) : List Char :=
  ((cs.dropWhile isPySpace).reverse.dropWhile isPySpace).reverse

/-- Characters admitted by the sanitizer's class `[a-z0-9_]`. -/
def isIdentChar (c : Char) : Bool :=
  ('a' ≤ c && c ≤ 'z') || ('0' ≤ c && c ≤ '9') || c == '_'

/-- Whether a character list starts with an ASCII digit
(Python `re.match(r'^[0-9]', name)`). -/
def headIsDigit : List Char → Bool
  | [] => false
  | c :: _ => c.isDigit

/-- `sanitize_table_name` from the source: strip, lower-case, replace every
character outside `[a-z0-9_]` with an underscore, prepend `t_` when the result
starts with a digit, truncate to 64 characters. -/
def sanitize_table_name (name : String) : String :=
  let n1 := (pyStrip name.toList).map Char.toLower
  let n2 := n1.map (fun c => if isIdentChar c then c else '_')
  let n3 := if headIsDigit n2 then 't' :: '_' :: n2 else n2
  String.mk (n3.take 64)

/-- The spec's TableName invariant, as a decidable check: non-empty, at most
64 characters, all in `[a-z0-9_]`, not starting with a digit. -/
def isValidTableName (s : String) : Bool :=
  decide (1 ≤ s.toList.length) && decide (s.toList.length ≤ 64)
    && s.toList.all isIdentChar && !headIsDigit s.toList

/-- Total order on character lists by code point, mirroring Python string
comparison (used to model the sorted key order of pandas `groupby`). -/
def charListLe : List Char → List Char → Bool
  | [], _ => true
  | _ :: _, [] => false
  | a :: as, b :: bs =>
    if a.toNat < b.toNat then true
    else if b.toNat < a.toNat then false
    else charListLe as bs

/-- String comparison by code point. -/
def strLe (a b : String) : Bool := charListLe a.toList b.toList

/-- Insert a key into a sorted key list (ascending by `strLe`). -/
def insertSorted (k : String) : List String → List String
  | [] => [k]
  | x :: xs => if strLe k x then k :: x :: xs else x :: insertSorted k xs

/-- Sort keys ascending by `strLe`, modelling the sorted group-key order of
pandas `groupby` (its default `sort=True`). -/
def sortKeys : List String → List String
  | [] => []
  | x :: xs => insertSorted x (sortKeys xs)

/-- One step of the first-occurrence scan: append a key unless already seen. -/
def seenStep (acc : List String) (k : String) : List String :=
  if k ∈ acc then acc else acc ++ [k]

/-- Distinct values in order of first occurrence. -/
def firstSeen (l : List String) : List String :=
  l.foldl seenStep []

/-- Python `str(cell)` on a pandas cell: a missing value (NaN) prints as the
text `nan`; a present text cell is unchanged.  This is what
`Series.astype(str)` does to each cell. -/
def pyAstypeStr : Cell → String
  | none => "nan"
  | some s => s

/-- The source's discriminant normalization
`df[codigo_col].astype(str).fillna('sem_codigo')` applied to column `j`:
`astype(str)` first renders every cell (including NaN) as text, after which no
missing value remains, so the trailing `fillna` finds nothing to fill. -/
def astypeCol (df : DataFrame) (j : Nat) : DataFrame :=
  { cols := df.cols
    rows := df.rows.map (fun r => r.set j (some (pyAstypeStr (r.getD j none)))) }

/-- `df.dropna(axis=1, how='all')`: keep exactly the columns that have at
least one present value in some row. -/
def dropEmptyCols (df : DataFrame) : DataFrame :=
  let idxs := (List.range df.cols.length).filter
    (fun j => df.rows.any (fun r => (r.getD j none).isSome))
  { cols := idxs.map (fun j => df.cols.getD j "")
    rows := df.rows.map (fun r => idxs.map (fun j => r.getD j none)) }

/-- First index in `l` whose element satisfies `p`, mirroring the source's
`[c for c in df.columns if str(c).strip().lower() == 'codigo']` followed by
taking the first element. -/
def findIdxFrom (p : String → Bool) : List String → Option Nat
  | [] => none
  | c :: cs => if p c then some 0 else (findIdxFrom p cs).map (· + 1)

/-- Index of the discriminant column: the first column whose name, trimmed
and lower-cased, equals `codigo`. -/
def findCodigo (df : DataFrame) : Option Nat :=
  findIdxFrom (fun c => String.mk ((pyStrip c.toList).map Char.toLower) == "codigo") df.cols

/-- pandas `df.groupby(col)` on string column `j` with its defaults: group
keys are the distinct cell values sorted ascending; each group keeps the rows
whose cell at `j` equals the key, in their original order; rows whose cell at
`j` is missing are dropped (`dropna=True`). -/
def DataFrame.groupby (df : DataFrame) (j : Nat) : List (String × DataFrame) :=
  let keys := sortKeys (firstSeen (df.rows.filterMap (fun r => r.getD j none)))
  keys.map (fun k =>
    (k, { cols := df.cols
          rows := df.rows.filter (fun r => r.getD j none == some k) }))

/-- The per-sheet partitioning logic of `main` (lines 167-192): skip an empty
frame, drop fully-empty columns, then either group by the discriminant column
(after `astype(str).fillna` normalization) or keep a single unkeyed unit.
Each returned pair is one write attempt. -/
def processSheet (df : DataFrame) : List (Option String × DataFrame) :=
  if df.empty then []
  else
    let pruned := dropEmptyCols df
    match findCodigo pruned with
    | some j =>
      let norm := astypeCol pruned j
      (norm.groupby j).map (fun p => (some p.1, p.2))
    | none => [(none, pruned)]

/-- Python `os.path.splitext(path)[1].lower()`: the (lower-cased) extension,
including the dot; leading dots of the base name never start an extension. -/
def pyExtLower (path : String) : String :=
  let base := (path.toList.reverse.takeWhile (fun c => c != '/')).reverse
  let rest := base.dropWhile (fun c => c == '.')
  if rest.contains '.' then
    String.mk ('.' :: ((rest.reverse.takeWhile (fun c => c != '.')).reverse.map Char.toLower))
  else ""

/-- Python `os.path.splitext(os.path.basename(path))[0]`: the file base name
without its extension. -/
def pyBaseNoExt (path : String) : String :=
  let base := (path.toList.reverse.takeWhile (fun c => c != '/')).reverse
  let lead := base.takeWhile (fun c => c == '.')
  let rest := base.dropWhile (fun c => c == '.')
  if rest.contains '.' then
    String.mk (lead ++ (rest.reverse.dropWhile (fun c => c != '.')).reverse.dropLast)
  else String.mk base

/-- One input file: its path, plus the modelled behavior of the external
library calls the reader can make on it.  `excelOpen` is the outcome of
`pd.ExcelFile(path)` followed by per-sheet `xls.parse` (an `Except.error` at
the outer level is an exception while opening the workbook; an inner
`Except.error` is a per-sheet parse failure).  `csvRead` is the combined
outcome of the line-counting `open` and `pd.read_csv` (total physical line
count and parsed frame), `Except.error` when either raises. -/
structure File where
  path : String
  excelOpen : Except String (List (String × Except String DataFrame))
  csvRead : Except String (Nat × DataFrame)
deriving Repr

/-- Message printed for a per-sheet parse failure. -/
def sheetErrMsg (path sheet e : String) : String :=
  "Erro lendo " ++ path ++ " sheet " ++ sheet ++ ": " ++ e

/-- Message printed when CSV lines were skipped. -/
def skipMsg (skipped : Int) : String :=
  toString skipped ++ " linhas foram skipadas por erro de formatacao no CSV."

/-- Message printed when the whole CSV branch raises. -/
def csvErrMsg (path e : String) : String :=
  "Erro CSV " ++ path ++ ": " ++ e

/-- `read_file_to_dfs` from the source: dispatch on the lower-cased
extension.  Workbooks: an open failure propagates (no enclosing try); a
per-sheet failure is logged and that sheet skipped.  CSV: the whole branch is
wrapped in try/except, so any failure is logged and yields an empty mapping;
on success the skipped-line count `total_lines - read_lines - 1` is reported
when strictly positive.  Unrecognized extensions yield an empty mapping.
The result pairs the sheet-keyed frames with the diagnostic log. -/
def read_file_to_dfs (f : File) : Except String (List (String × DataFrame) × List String) :=
  let ext := pyExtLower f.path
  if ext == ".xls" || ext == ".xlsx" then
    match f.excelOpen with
    | .error e => .error e
    | .ok sheets =>
      .ok (sheets.foldl (fun acc s =>
        match s.2 with
        | .ok df => (acc.1 ++ [(s.1, df)], acc.2)
        | .error e => (acc.1, acc.2 ++ [sheetErrMsg f.path s.1 e])) ([], []))
  else if ext == ".csv" then
    match f.csvRead with
    | .error e => .ok ([], [csvErrMsg f.path e])
    | .ok (totalLines, df) =>
      let skipped : Int := (totalLines : Int) - (df.rows.length : Int) - 1
      .ok ([("csv", df)], if skipped > 0 then [skipMsg skipped] else [])
  else .ok ([], [])

/-- Raw table name for one partition, as built in `main`:
`base_sheet_key` when a discriminant key exists, `base_sheet` otherwise,
passed through the sanitizer. -/
def unitTableName (base sheet : String) : Option String → String
  | some k => sanitize_table_name (base ++ "_" ++ sheet ++ "_" ++ k)
  | none => sanitize_table_name (base ++ "_" ++ sheet)

/-- The write units (table name, frame) produced for one sheet of one file. -/
def sheetUnits (base sheet : String) (df : DataFrame) : List (String × DataFrame) :=
  (processSheet df).map (fun p => (unitTableName base sheet p.1, p.2))

/-- The write units produced for one file: read it (exceptions propagate,
`main` wraps the call in no try/except), then partition every sheet. -/
def processFileUnits (f : File) : Except String (List (String × DataFrame)) :=
  match read_file_to_dfs f with
  | .error e => .error e
  | .ok (dfs, _log) =>
    .ok (dfs.flatMap (fun sd => sheetUnits (pyBaseNoExt f.path) sd.1 sd.2))

/-- The file loop of `main`: process files in order, accumulating write
units; an uncaught exception from any file aborts the whole run (the
remaining files are never reached, since `main` wraps the loop body in no
try/except). -/
def mainRun : List File → Except String (List (String × DataFrame))
  | [] => .ok []
  | f :: fs =>
    match processFileUnits f with
    | .error e => .error e
    | .ok us =>
      match mainRun fs with
      | .error e => .error e
      | .ok rest => .ok (us ++ rest)

/-- The store boundary: the modelled behavior of `DataFrame.to_sql` per
table (an `Except.error` is an exception raised by the insert). -/
structure Store where
  write : String → DataFrame → Except String Unit

/-- Success message of `write_df_to_table`. -/
def wroteMsg (n : Nat) (t : String) : String :=
  "Gravado " ++ toString n ++ " linhas na tabela " ++ t

/-- Failure message of `write_df_to_table`: table name and underlying cause. -/
def writeErrMsg (t e : String) : String :=
  "Erro gravando tabela " ++ t ++ ": " ++ e

/-- The log lines one `write_df_to_table` call emits. -/
def writeLog (store : Store) (t : String) (df : DataFrame) : List String :=
  match store.write t df with
  | .ok _ => [wroteMsg df.rows.length t]
  | .error e => [writeErrMsg t e]

/-- `write_df_to_table` from the source: the `to_sql` call sits inside
`try/except Exception`, so a raising store is caught and logged; the function
itself never ends in an exceptional state (`Except.error`). -/
def write_df_to_table (store : Store) (df : DataFrame) (t : String) : Except String (List String) :=
  match store.write t df with
  | .ok _ => .ok [wroteMsg df.rows.length t]
  | .error e => .ok [writeErrMsg t e]

/-- Writing a sequence of units the way `main` does: one `write_df_to_table`
call per unit, in order, collecting the logs; an exceptional result from one
call would abort the remaining calls. -/
def writeSeq (store : Store) : List (String × DataFrame) → Except String (List String)
  | [] => .ok []
  | u :: us =>
    match write_df_to_table store u.2 u.1 with
    | .error e => .error e
    | .ok l =>
      match writeSeq store us with
      | .error e => .error e
      | .ok ls => .ok (l ++ ls)

/-- Modelled pandas CSV parse under `on_bad_lines='skip'` for the simple
one-record-per-physical-line case: each data line is either parsed into a row
(`some r`) or malformed and skipped (`none`); the frame keeps the parsed rows
in order under the header's columns. -/
def csvDf (header : List String) (dataLines : List (Option Row)) : DataFrame :=
  { cols := header, rows := dataLines.filterMap id }

/-- Physical line count of such a CSV file: one header line plus the data
lines. -/
def csvTotal (dataLines : List (Option Row)) : Nat := 1 + dataLines.length

/-- Ordering on partition keys lifted to the optional keys emitted by
`processSheet` (an absent key compares below everything). -/
def optStrLe : Option String → Option String → Bool
  | some a, some b => strLe a b
  | _, _ => true

/-- Witness fixture: a store whose insert raises exactly on table `t1`. -/
def storeW : Store :=
  ⟨fun t _ => if t == "t1" then .error "boom" else .ok ()⟩

/-- Witness fixture: a one-row frame. -/
def dfW : DataFrame := ⟨["a"], [[some "1"]]⟩

/-- Witness fixture: a frame with a `codigo` column, a repeated key and a
missing key cell. -/
def dfW5 : DataFrame :=
  ⟨["codigo", "amount"],
   [[some "a", some "10"], [some "b", some "5"], [some "a", some "7"], [none, some "9"]]⟩

example : sanitize_table_name ("2024 Sales!") = "t_2024_sales_" := by decide

example : processSheet ⟨["codigo"], [[some "b"], [some "a"]]⟩ =
    [(some "a", ⟨["codigo"], [[some "a"]]⟩), (some "b", ⟨["codigo"], [[some "b"]]⟩)] := by
  decide

lemma charListLe_total : ∀ as bs : List Char, charListLe as bs = true ∨ charListLe bs as = true := by
  intro as
  induction as with
  | nil => intro bs; left; rfl
  | cons a as ih =>
    intro bs
    cases bs with
    | nil => right; rfl
    | cons b bs =>
      by_cases h1 : a.toNat < b.toNat
      · left; simp [charListLe, h1]
      · by_cases h2 : b.toNat < a.toNat
        · right; simp [charListLe, h2]
        · rcases ih bs with h | h
          · left; simp [charListLe, h1, h2, h]
          · right; simp [charListLe, h1, h2, h]

lemma charListLe_trans : ∀ as bs cs : List Char,
    charListLe as bs = true → charListLe bs cs = true → charListLe as cs = true := by
  intro as
  induction as with
  | nil => intro bs cs _ _; rfl
  | cons a as ih =>
    intro bs cs hab hbc
    cases bs with
    | nil => simp [charListLe] at hab
    | cons b bs =>
      cases cs with
      | nil => simp [charListLe] at hbc
      | cons c cs =>
        simp only [charListLe] at hab hbc ⊢
        by_cases h1 : a.toNat < b.toNat
        · by_cases h2 : b.toNat < c.toNat
          · have : a.toNat < c.toNat := Nat.lt_trans h1 h2
            simp [this]
          · by_cases h3 : c.toNat < b.toNat
            · simp [h2, h3] at hbc
            · have hbceq : b.toNat = c.toNat := Nat.le_antisymm (Nat.not_lt.mp h3) (Nat.not_lt.mp h2)
              have : a.toNat < c.toNat := hbceq ▸ h1
              simp [this]
        · by_cases h2 : b.toNat < a.toNat
          · simp [h1, h2] at hab
          · have habeq : a.toNat = b.toNat := Nat.le_antisymm (Nat.not_lt.mp h2) (Nat.not_lt.mp h1)
            by_cases h3 : b.toNat < c.toNat
            · have : a.toNat < c.toNat := habeq ▸ h3
              simp [this]
            · by_cases h4 : c.toNat < b.toNat
              · simp [h3, h4] at hbc
              · have h5 : ¬ a.toNat < c.toNat := by omega
                have h6 : ¬ c.toNat < a.toNat := by omega
                simp only [h1, h2, if_neg, ite_false] at hab
                simp only [h3, h4, if_neg, ite_false] at hbc
                simp [h5, h6]
                exact ih bs cs hab hbc

lemma strLe_total (a b : String) : strLe a b = true ∨ strLe b a = true :=
  charListLe_total a.toList b.toList

lemma strLe_trans {a b c : String} (h1 : strLe a b = true) (h2 : strLe b c = true) :
    strLe a c = true :=
  charListLe_trans a.toList b.toList c.toList h1 h2

lemma mem_insertSorted {x k : String} : ∀ {l : List String},
    x ∈ insertSorted k l ↔ x = k ∨ x ∈ l := by
  intro l
  induction l with
  | nil => simp [insertSorted]
  | cons a t ih =>
    rw [insertSorted]
    by_cases h : strLe k a = true
    · rw [if_pos h]
      simp only [List.mem_cons]
    · rw [if_neg h]
      simp only [List.mem_cons, ih]
      tauto

lemma insertSorted_perm (k : String) : ∀ (l : List String),
    (insertSorted k l).Perm (k :: l) := by
  intro l
  induction l with
  | nil => simp [insertSorted]
  | cons a t ih =>
    rw [insertSorted]
    by_cases h : strLe k a = true
    · rw [if_pos h]
    · rw [if_neg h]
      exact (ih.cons a).trans (List.Perm.swap k a t)

lemma sortKeys_perm : ∀ (l : List String), (sortKeys l).Perm l := by
  intro l
  induction l with
  | nil => simp [sortKeys]
  | cons a t ih =>
    exact ((insertSorted_perm a (sortKeys t)).trans (ih.cons a))

lemma pairwise_insertSorted {k : String} : ∀ {l : List String},
    l.Pairwise (fun a b => strLe a b = true) →
    (insertSorted k l).Pairwise (fun a b => strLe a b = true) := by
  intro l
  induction l with
  | nil => intro _; simp [insertSorted]
  | cons a t ih =>
    intro hp
    rcases List.pairwise_cons.mp hp with ⟨ha, ht⟩
    by_cases h : strLe k a
    · simp only [insertSorted, h, if_true]
      refine List.pairwise_cons.mpr ⟨?_, hp⟩
      intro x hx
      rcases List.mem_cons.mp hx with rfl | hx
      · exact h
      · exact strLe_trans h (ha x hx)
    · simp only [insertSorted, h, ite_false]
      refine List.pairwise_cons.mpr ⟨?_, ih ht⟩
      intro x hx
      rcases mem_insertSorted.mp hx with rfl | hx
      · rcases strLe_total x a with h1 | h1
        · exact absurd h1 h
        · exact h1
      · exact ha x hx

lemma pairwise_sortKeys : ∀ (l : List String),
    (sortKeys l).Pairwise (fun a b => strLe a b = true) := by
  intro l
  induction l with
  | nil => simp [sortKeys]
  | cons a t ih => exact pairwise_insertSorted ih

lemma mem_foldl_seenStep : ∀ (l : List String) (acc : List String) (x : String),
    x ∈ l.foldl seenStep acc ↔ x ∈ acc ∨ x ∈ l := by
  intro l
  induction l with
  | nil => intro acc x; simp
  | cons a t ih =>
    intro acc x
    simp only [List.foldl_cons, ih, seenStep]
    by_cases h : a ∈ acc
    · simp only [h, if_true, List.mem_cons]
      constructor
      · rintro (hx | hx)
        · exact Or.inl hx
        · exact Or.inr (Or.inr hx)
      · rintro (hx | rfl | hx)
        · exact Or.inl hx
        · exact Or.inl h
        · exact Or.inr hx
    · simp only [h, ite_false, List.mem_append, List.mem_singleton, List.mem_cons]
      tauto

lemma nodup_foldl_seenStep : ∀ (l : List String) (acc : List String),
    acc.Nodup → (l.foldl seenStep acc).Nodup := by
  intro l
  induction l with
  | nil => intro acc h; simpa using h
  | cons a t ih =>
    intro acc h
    simp only [List.foldl_cons]
    apply ih
    unfold seenStep
    by_cases ha : a ∈ acc
    · simpa [ha] using h
    · simp only [ha, ite_false]
      rw [List.nodup_append]
      refine ⟨h, List.nodup_singleton a, ?_⟩
      intro x hx hmem
      rcases List.mem_singleton.mp hmem with rfl
      exact ha hx

lemma mem_firstSeen {l : List String} {x : String} : x ∈ firstSeen l ↔ x ∈ l := by
  unfold firstSeen
  rw [mem_foldl_seenStep]
  simp

lemma nodup_firstSeen (l : List String) : (firstSeen l).Nodup :=
  nodup_foldl_seenStep l [] List.nodup_nil

lemma findIdxFrom_lt_length {p : String → Bool} : ∀ {l : List String} {j : Nat},
    findIdxFrom p l = some j → j < l.length := by
  intro l
  induction l with
  | nil => intro j h; simp [findIdxFrom] at h
  | cons c cs ih =>
    intro j h
    rw [findIdxFrom] at h
    by_cases hp : p c = true
    · rw [if_pos hp] at h
      cases h
      simp
    · rw [if_neg hp] at h
      rcases Option.map_eq_some'.mp h with ⟨j0, hj0, rfl⟩
      have := ih hj0
      simp only [List.length_cons]
      omega

lemma findCodigo_lt_length {df : DataFrame} {j : Nat} (h : findCodigo df = some j) :
    j < df.cols.length :=
  findIdxFrom_lt_length h

lemma dropEmptyCols_rect {df : DataFrame} {r : Row} (h : r ∈ (dropEmptyCols df).rows) :
    r.length = (dropEmptyCols df).cols.length := by
  simp only [dropEmptyCols, List.mem_map] at h ⊢
  rcases h with ⟨r0, _, rfl⟩
  simp

lemma getD_set_lt {r : Row} {j : Nat} {a : Cell} (h : j < r.length) :
    (r.set j a).getD j none = a := by
  rw [List.getD_eq_getElem?_getD, List.getElem?_set_self h]
  rfl

lemma astypeCol_key {df : DataFrame} {j : Nat} {r : Row}
    (hrect : ∀ r0 ∈ df.rows, r0.length = df.cols.length)
    (hj : j < df.cols.length)
    (h : r ∈ (astypeCol df j).rows) :
    ∃ v, r.getD j none = some v := by
  simp only [astypeCol, List.mem_map] at h
  rcases h with ⟨r0, hr0, rfl⟩
  refine ⟨pyAstypeStr (r0.getD j none), ?_⟩
  exact getD_set_lt ((hrect r0 hr0) ▸ hj)

lemma filter_cover_perm (key : Row → Option String) :
    ∀ (keys : List String) (l : List Row), keys.Nodup →
      (∀ r ∈ l, ∃ k, key r = some k ∧ k ∈ keys) →
      (keys.flatMap (fun k => l.filter (fun r => key r == some k))).Perm l := by
  intro keys
  induction keys with
  | nil =>
    intro l _ hcov
    cases l with
    | nil => simp
    | cons r t =>
      rcases hcov r (List.mem_cons_self r t) with ⟨k, _, hk⟩
      exact absurd hk (List.not_mem_nil k)
  | cons k ks ih =>
    intro l hnd hcov
    rcases List.nodup_cons.mp hnd with ⟨hkn, hksnd⟩
    rw [List.flatMap_cons]
    have hrest : ks.flatMap (fun k2 => l.filter (fun r => key r == some k2))
        = ks.flatMap (fun k2 =>
            (l.filter (fun r => !(key r == some k))).filter (fun r => key r == some k2)) := by
      apply List.flatMap_congr
      intro k2 hk2
      rw [List.filter_filter]
      apply List.filter_congr
      intro r _
      by_cases hr : key r = some k2
      · have hk2k : ¬ k2 = k := by
          intro hh
          exact hkn (hh ▸ hk2)
        simp [hr, hk2k]
      · simp [hr]
    rw [hrest]
    have hcov2 : ∀ r ∈ l.filter (fun r => !(key r == some k)), ∃ k2, key r = some k2 ∧ k2 ∈ ks := by
      intro r hr
      rcases List.mem_filter.mp hr with ⟨hrl, hrb⟩
      rcases hcov r hrl with ⟨k2, hk2, hk2m⟩
      refine ⟨k2, hk2, ?_⟩
      rcases List.mem_cons.mp hk2m with rfl | hm
      · exfalso
        simp [hk2] at hrb
      · exact hm
    have hperm2 := ih (l.filter (fun r => !(key r == some k))) hksnd hcov2
    have := hperm2.append_left (l.filter (fun r => key r == some k))
    exact this.trans (List.filter_append_perm (fun r => key r == some k) l)

lemma groupby_fst (df : DataFrame) (j : Nat) :
    (df.groupby j).map Prod.fst
      = sortKeys (firstSeen (df.rows.filterMap (fun r => r.getD j none))) := by
  simp [DataFrame.groupby, Function.comp_def]

lemma groupby_mem {df : DataFrame} {j : Nat} {p : String × DataFrame}
    (h : p ∈ df.groupby j) :
    p.2.cols = df.cols ∧ p.2.rows = df.rows.filter (fun r => r.getD j none == some p.1) := by
  simp only [DataFrame.groupby, List.mem_map] at h
  rcases h with ⟨k, _, rfl⟩
  exact ⟨rfl, rfl⟩

lemma groupby_flat_perm (df : DataFrame) (j : Nat)
    (hcov : ∀ r ∈ df.rows, ∃ v, r.getD j none = some v) :
    ((df.groupby j).flatMap (fun p => p.2.rows)).Perm df.rows := by
  unfold DataFrame.groupby
  rw [List.flatMap_map]
  apply filter_cover_perm (fun r => r.getD j none)
  · exact ((sortKeys_perm _).nodup_iff).mpr (nodup_firstSeen _)
  · intro r hr
    rcases hcov r hr with ⟨v, hv⟩
    refine ⟨v, hv, ?_⟩
    rw [(sortKeys_perm _).mem_iff, mem_firstSeen, List.mem_filterMap]
    exact ⟨r, hr, hv⟩

lemma isIdentChar_sub (c : Char) : isIdentChar (if isIdentChar c then c else '_') = true := by
  by_cases h : isIdentChar c = true
  · rw [if_pos h]
    exact h
  · rw [if_neg h]
    decide

lemma headIsDigit_take {n : Nat} (hn : 0 < n) :
    ∀ (l : List Char), headIsDigit (l.take n) = headIsDigit l := by
  intro l
  cases l with
  | nil => simp
  | cons c t =>
    cases n with
    | zero => omega
    | succ m => simp [List.take_succ_cons, headIsDigit]

lemma filterMap_id_length : ∀ (l : List (Option Row)),
    (l.filterMap id).length + l.count none = l.length := by
  intro l
  induction l with
  | nil => rfl
  | cons a t ih =>
    cases a with
    | none =>
      simp only [List.filterMap_cons, id, List.count_cons, List.length_cons,
        beq_self_eq_true, if_true]
      omega
    | some r =>
      simp only [List.filterMap_cons, id, List.count_cons, List.length_cons]
      rw [if_neg (by simp : ¬ ((some r == (none : Option Row)) = true))]
      omega

lemma processSheet_codigo {df : DataFrame} {j : Nat}
    (h1 : df.empty = false) (h2 : findCodigo (dropEmptyCols df) = some j) :
    processSheet df
      = ((astypeCol (dropEmptyCols df) j).groupby j).map (fun p => (some p.1, p.2)) := by
  simp [processSheet, h1, h2]

lemma astypeCol_length (df : DataFrame) (j : Nat) :
    (astypeCol df j).rows.length = df.rows.length := by
  simp [astypeCol]

lemma processSheet_cover {df : DataFrame} {j : Nat}
    (h2 : findCodigo (dropEmptyCols df) = some j) :
    ∀ r ∈ (astypeCol (dropEmptyCols df) j).rows, ∃ v, r.getD j none = some v :=
  fun _ hr =>
    astypeCol_key (fun _ h => dropEmptyCols_rect h) (findCodigo_lt_length h2) hr

lemma pairwise_groupby_keys (df : DataFrame) (j : Nat) :
    (((df.groupby j).map Prod.fst).map some).Pairwise (fun a b => optStrLe a b = true) := by
  rw [groupby_fst, List.pairwise_map]
  exact (pairwise_sortKeys _).imp (fun h => h)

/-- Claim C1 (code bug): the spec and the code's own comment intend missing
discriminant values to be normalized to the sentinel `sem_codigo`, but
`astype(str)` runs before `fillna`, so a missing value becomes the text `nan`
and the `fillna('sem_codigo')` is dead.  On a sheet whose `codigo` column has
a missing cell, the code emits that row under partition key `nan`; no
partition ever carries the key `sem_codigo`. -/
theorem C1_missing_codigo_key_is_nan :
    processSheet ⟨["codigo"], [[none], [some "x"]]⟩
      = [(some "nan", ⟨["codigo"], [[some "nan"]]⟩),
         (some "x", ⟨["codigo"], [[some "x"]]⟩)]
    ∧ ∀ p ∈ processSheet ⟨["codigo"], [[none], [some "x"]]⟩, p.1 ≠ some "sem_codigo" := by
  decide

/-- Claim C2 (counterexample): with discriminant values `b` then `a`, the
partitions are emitted in sorted key order `a, b`, not in first-occurrence
order `b, a`. -/
theorem C2_counterexample :
    (processSheet ⟨["codigo"], [[some "b"], [some "a"]]⟩).map Prod.fst
      = [some "a", some "b"]
    ∧ firstSeen (((⟨["codigo"], [[some "b"], [some "a"]]⟩ : DataFrame)).rows.filterMap
        (fun r => r.getD 0 none)) = ["b", "a"]
    ∧ ([some "a", some "b"] : List (Option String)) ≠ [some "b", some "a"] := by
  decide

/-- Claim C2 (amended): partitioning is stable and deterministic — rows
within each partition preserve their original relative order (each
partition's rows form a sublist of the normalized pruned RowSet) — but
partitions are emitted in ascending sorted order of their keys (the pandas
`groupby` default), not in order of first occurrence. -/
theorem C2_stable_sorted_partitions (df : DataFrame) (j : Nat)
    (h1 : df.empty = false) (h2 : findCodigo (dropEmptyCols df) = some j) :
    ((processSheet df).map Prod.fst).Pairwise (fun a b => optStrLe a b = true) ∧
    ∀ p ∈ processSheet df, p.2.rows.Sublist (astypeCol (dropEmptyCols df) j).rows := by
  constructor
  · have hmap : (processSheet df).map Prod.fst
        = (((astypeCol (dropEmptyCols df) j).groupby j).map Prod.fst).map some := by
      rw [processSheet_codigo h1 h2, List.map_map, List.map_map]
      rfl
    rw [hmap]
    exact pairwise_groupby_keys _ _
  · intro p hp
    rw [processSheet_codigo h1 h2] at hp
    rcases List.mem_map.mp hp with ⟨q, hq, rfl⟩
    rcases groupby_mem hq with ⟨_, hrows⟩
    exact hrows ▸ List.filter_sublist _

/-- Claim C2 witness: the amended theorem applied to a concrete frame with
keys first seen in the order `b, a`. -/
theorem C2_witness :
    DataFrame.empty ⟨["codigo"], [[some "b"], [some "a"]]⟩ = false ∧
    (((processSheet ⟨["codigo"], [[some "b"], [some "a"]]⟩).map Prod.fst).Pairwise
        (fun a b => optStrLe a b = true) ∧
      ∀ p ∈ processSheet ⟨["codigo"], [[some "b"], [some "a"]]⟩,
        p.2.rows.Sublist (astypeCol (dropEmptyCols ⟨["codigo"], [[some "b"], [some "a"]]⟩) 0).rows) :=
  ⟨rfl, C2_stable_sorted_partitions _ 0 rfl rfl⟩

/-- Claim C4 (counterexample): on the empty string the sanitizer returns the
empty string, which is not a valid non-empty table identifier. -/
theorem C4_counterexample :
    sanitize_table_name ("") = "" ∧ isValidTableName (sanitize_table_name ("")) = false := by
  decide

/-- Claim C4 (amended): for every input string the sanitizer's output matches
`[a-z0-9_]*`, has length at most 64, does not start with a digit, and is
non-empty whenever the trimmed input is non-empty (the empty or all-whitespace
input yields the empty string). -/
theorem C4_sanitize_shape (s : String) :
    (sanitize_table_name s).toList.all isIdentChar = true ∧
    (sanitize_table_name s).toList.length ≤ 64 ∧
    headIsDigit (sanitize_table_name s).toList = false ∧
    (pyStrip s.toList ≠ [] → 1 ≤ (sanitize_table_name s).toList.length) := by
  have hmk : ∀ l : List Char, (String.mk l).toList = l := fun l => rfl
  unfold sanitize_table_name
  rw [hmk]
  have hall2 : (((pyStrip s.toList).map Char.toLower).map
      (fun c => if isIdentChar c then c else '_')).all isIdentChar = true := by
    rw [List.all_eq_true]
    intro x hx
    rcases List.mem_map.mp hx with ⟨c, _, rfl⟩
    exact isIdentChar_sub c
  have hall3 : (if headIsDigit (((pyStrip s.toList).map Char.toLower).map
        (fun c => if isIdentChar c then c else '_'))
      then 't' :: '_' :: (((pyStrip s.toList).map Char.toLower).map
        (fun c => if isIdentChar c then c else '_'))
      else (((pyStrip s.toList).map Char.toLower).map
        (fun c => if isIdentChar c then c else '_'))).all isIdentChar = true := by
    by_cases hd : headIsDigit (((pyStrip s.toList).map Char.toLower).map
        (fun c => if isIdentChar c then c else '_')) = true
    · rw [if_pos hd]
      simp only [List.all_cons, hall2, Bool.and_true]
      decide
    · rw [if_neg hd]
      exact hall2
  refine ⟨?_, ?_, ?_, ?_⟩
  · rw [List.all_eq_true] at hall3 ⊢
    intro x hx
    exact hall3 x ((List.take_sublist 64 _).mem hx)
  · rw [List.length_take]
    exact inf_le_left
  · rw [headIsDigit_take (by omega)]
    by_cases hd : headIsDigit (((pyStrip s.toList).map Char.toLower).map
        (fun c => if isIdentChar c then c else '_')) = true
    · rw [if_pos hd]
      rfl
    · rw [if_neg hd]
      exact Bool.not_eq_true _ ▸ (by simpa using hd)
  · intro hne
    have h2 : 1 ≤ (((pyStrip s.toList).map Char.toLower).map
        (fun c => if isIdentChar c then c else '_')).length := by
      simp only [List.length_map]
      exact List.length_pos.mpr hne
    have h3 : 1 ≤ (if headIsDigit (((pyStrip s.toList).map Char.toLower).map
          (fun c => if isIdentChar c then c else '_'))
        then 't' :: '_' :: (((pyStrip s.toList).map Char.toLower).map
          (fun c => if isIdentChar c then c else '_'))
        else (((pyStrip s.toList).map Char.toLower).map
          (fun c => if isIdentChar c then c else '_'))).length := by
      by_cases hd : headIsDigit (((pyStrip s.toList).map Char.toLower).map
          (fun c => if isIdentChar c then c else '_')) = true
      · rw [if_pos hd]
        simp
      · rw [if_neg hd]
        exact h2
    rw [List.length_take]
    exact le_inf (by omega) h3

/-- Claim C4 witness: the amended theorem at the spec's own example input,
whose trimmed form is non-empty. -/
theorem C4_witness :
    pyStrip ("2024 Sales!").toList ≠ [] ∧
    1 ≤ (sanitize_table_name ("2024 Sales!")).toList.length :=
  ⟨by decide, (C4_sanitize_shape ("2024 Sales!")).2.2.2 (by decide)⟩

/-- Claim C8 (counterexample): a one-row sheet whose single column is
entirely missing passes the pre-pruning `df.empty` check, loses all its
columns in the pruning pass, and is still handed to the writer as one write
unit (zero columns, one row) — the pipeline does not skip it. -/
theorem C8_counterexample :
    DataFrame.empty ⟨["a"], [[none]]⟩ = false
    ∧ (dropEmptyCols ⟨["a"], [[none]]⟩).cols = []
    ∧ processSheet ⟨["a"], [[none]]⟩ = [(none, ⟨[], [[]]⟩)] := by
  decide

/-- Claim C8 (amended): a sheet or CSV row-set that has zero rows or zero
columns when it arrives from the reader is skipped — no write unit is
produced for it; a row-set whose columns all become empty only during the
pruning pass is however still passed to the writer. -/
theorem C8_empty_skipped (df : DataFrame) (h : df.empty = true) :
    processSheet df = [] := by
  simp [processSheet, h]

/-- Claim C8 witness: a zero-row frame is skipped. -/
theorem C8_witness :
    DataFrame.empty ⟨["a"], []⟩ = true ∧ processSheet ⟨["a"], []⟩ = [] :=
  ⟨rfl, C8_empty_skipped _ rfl⟩

/-- Claim C5 (confirmed): for a RowSet with a discriminant column,
concatenating the rows of all emitted partitions is a permutation of the rows
the code partitions (the column-pruned RowSet with the discriminant column
rendered to text) — no row is lost or duplicated, the total row count equals
that of the pruned original, and every output partition retains the full
pruned column set including the discriminant column. -/
theorem C5_partition_lossless (df : DataFrame) (j : Nat)
    (h1 : df.empty = false) (h2 : findCodigo (dropEmptyCols df) = some j) :
    ((processSheet df).flatMap (fun p => p.2.rows)).Perm
        (astypeCol (dropEmptyCols df) j).rows ∧
    ((processSheet df).flatMap (fun p => p.2.rows)).length
        = (dropEmptyCols df).rows.length ∧
    ∀ p ∈ processSheet df,
      p.2.cols = (dropEmptyCols df).cols ∧ findCodigo p.2 = some j := by
  have hperm : ((processSheet df).flatMap (fun p => p.2.rows)).Perm
      (astypeCol (dropEmptyCols df) j).rows := by
    rw [processSheet_codigo h1 h2, List.flatMap_map]
    exact groupby_flat_perm _ j (processSheet_cover h2)
  refine ⟨hperm, ?_, ?_⟩
  · rw [hperm.length_eq, astypeCol_length]
  · intro p hp
    rw [processSheet_codigo h1 h2] at hp
    rcases List.mem_map.mp hp with ⟨q, hq, rfl⟩
    rcases groupby_mem hq with ⟨hcols, _⟩
    have hcols2 : q.2.cols = (dropEmptyCols df).cols := hcols
    refine ⟨hcols2, ?_⟩
    show findIdxFrom _ q.2.cols = some j
    rw [hcols2]
    exact h2

/-- Claim C5 witness: the conclusion at a concrete frame with a repeated key
and a missing key cell. -/
theorem C5_witness :
    DataFrame.empty dfW5 = false ∧
    findCodigo (dropEmptyCols dfW5) = some 0 ∧
    (((processSheet dfW5).flatMap (fun p => p.2.rows)).Perm
        (astypeCol (dropEmptyCols dfW5) 0).rows ∧
      ((processSheet dfW5).flatMap (fun p => p.2.rows)).length
        = (dropEmptyCols dfW5).rows.length ∧
      ∀ p ∈ processSheet dfW5,
        p.2.cols = (dropEmptyCols dfW5).cols ∧ findCodigo p.2 = some 0) :=
  ⟨rfl, rfl, C5_partition_lossless dfW5 0 rfl rfl⟩

/-- Claim C3 (counterexample): the run `[corrupt workbook, good CSV]` aborts
with the workbook's exception and produces no write unit, while the good CSV
alone would have produced one — the orchestrator does not catch the per-file
read failure and does not continue with the remaining files. -/
theorem C3_counterexample :
    mainRun [⟨"a.xlsx", .error "corrupt", .error "unused"⟩,
             ⟨"b.csv", .ok [], .ok (2, ⟨["c"], [[some "1"]]⟩)⟩]
      = .error "corrupt"
    ∧ mainRun [⟨"b.csv", .ok [], .ok (2, ⟨["c"], [[some "1"]]⟩)⟩]
      = .ok [("b_csv", ⟨["c"], [[some "1"]]⟩)] :=
  ⟨rfl, rfl⟩

/-- Claim C3 (amended): an exception while opening a workbook file is not
caught at file scope — `main` wraps the reader call in no try/except, so the
exception propagates and aborts the run; the remaining files are never
processed.  (Only the CSV branch catches its own read failures.) -/
theorem C3_workbook_failure_aborts (f : File) (fs : List File) (e : String)
    (hx : pyExtLower f.path = ".xlsx" ∨ pyExtLower f.path = ".xls")
    (he : f.excelOpen = .error e) :
    mainRun (f :: fs) = .error e := by
  have hread : read_file_to_dfs f = .error e := by
    rcases hx with hx | hx <;> simp [read_file_to_dfs, hx, he]
  simp [mainRun, processFileUnits, hread]

/-- Claim C3 witness: the amended theorem at a concrete corrupt workbook
followed by another file. -/
theorem C3_witness :
    mainRun [⟨"x.xls", .error "corrupt", .error "unused"⟩,
             ⟨"y.csv", .ok [], .ok (1, ⟨["c"], []⟩)⟩]
      = .error "corrupt" :=
  C3_workbook_failure_aborts _ _ _ (Or.inr (by decide)) rfl

/-- Claim C7 (confirmed): a failure raised by the store while writing one
table is caught inside `write_df_to_table` and reported with the table name
and underlying cause; the writer returns normally (never an exceptional
result), and a subsequent independent write to another table proceeds exactly
as it would on its own. -/
theorem C7_write_failure_isolated (store : Store) (T U : String)
    (dfT dfU : DataFrame) (e : String) (h : store.write T dfT = .error e) :
    write_df_to_table store dfT T = .ok [writeErrMsg T e] ∧
    writeSeq store [(T, dfT), (U, dfU)] = .ok (writeErrMsg T e :: writeLog store U dfU) ∧
    writeSeq store [(U, dfU)] = .ok (writeLog store U dfU) := by
  have h1 : write_df_to_table store dfT T = .ok [writeErrMsg T e] := by
    simp [write_df_to_table, h]
  have h2 : write_df_to_table store dfU U = .ok (writeLog store U dfU) := by
    unfold write_df_to_table writeLog
    cases store.write U dfU <;> rfl
  refine ⟨h1, ?_, ?_⟩
  · simp [writeSeq, h1, h2]
  · simp [writeSeq, h2]

/-- Claim C7 witness: a store that raises exactly on table `t1`; writing
`t1` then `t2` logs the failure for `t1` and still writes `t2`. -/
theorem C7_witness :
    storeW.write ("t1") dfW = .error "boom" ∧
    writeSeq storeW [(("t1"), dfW), (("t2"), dfW)]
      = .ok (writeErrMsg ("t1") ("boom") :: writeLog storeW ("t2") dfW) :=
  ⟨rfl, (C7_write_failure_isolated storeW ("t1") ("t2") dfW dfW ("boom") rfl).2.1⟩

/-- Claim C9 (confirmed): for every path with extension `.csv` the reader is
total — whatever the modelled open/parse behavior does (including raising),
`read_file_to_dfs` returns normally, never an exceptional result — and when
the open/parse raises, the result is exactly the empty mapping (with the
error logged), in contrast with the workbook branch. -/
theorem C9_csv_reader_total (f : File) (hext : pyExtLower f.path = ".csv") :
    (∃ r, read_file_to_dfs f = .ok r) ∧
    ∀ e, f.csvRead = .error e →
      read_file_to_dfs f = .ok ([], [csvErrMsg f.path e]) := by
  constructor
  · cases hcr : f.csvRead with
    | error e =>
      exact ⟨([], [csvErrMsg f.path e]), by simp [read_file_to_dfs, hext, hcr]⟩
    | ok pr =>
      rcases pr with ⟨total, df⟩
      refine ⟨([("csv", df)],
        if ((total : Int) - (df.rows.length : Int) - 1) > 0
        then [skipMsg ((total : Int) - (df.rows.length : Int) - 1)] else []), ?_⟩
      simp [read_file_to_dfs, hext, hcr]
  · intro e he
    simp [read_file_to_dfs, hext, he]

/-- Claim C9 witness: a CSV file whose read raises returns normally with the
empty mapping and the error logged. -/
theorem C9_witness :
    read_file_to_dfs ⟨"x.csv", .ok [], .error "io error"⟩
      = .ok ([], [csvErrMsg ("x.csv") ("io error")]) :=
  (C9_csv_reader_total _ (by decide)).2 ("io error") rfl

/-- Claim C10 (confirmed): the skipped-lines diagnostic is emitted exactly
when the computed count `total_lines - parsed_rows - 1` is strictly positive;
when the count is zero or negative no report is produced. -/
theorem C10_skip_report_guard (f : File) (total : Nat) (df : DataFrame)
    (hext : pyExtLower f.path = ".csv") (hread : f.csvRead = .ok (total, df)) :
    ((0 : Int) < (total : Int) - (df.rows.length : Int) - 1 →
      read_file_to_dfs f
        = .ok ([("csv", df)], [skipMsg ((total : Int) - (df.rows.length : Int) - 1)])) ∧
    ((total : Int) - (df.rows.length : Int) - 1 ≤ 0 →
      read_file_to_dfs f = .ok ([("csv", df)], [])) := by
  constructor
  · intro h
    simp only [read_file_to_dfs, hext]
    rw [hread]
    simp only [if_pos (by omega : ((total : Int) - (df.rows.length : Int) - 1) > 0)]
    simp
  · intro h
    simp only [read_file_to_dfs, hext]
    rw [hread]
    simp only [if_neg (by omega : ¬ ((total : Int) - (df.rows.length : Int) - 1) > 0)]
    simp

/-- Claim C10 witness: a one-line file whose parse yields three rows (the
count comes out negative, as with quoted fields spanning physical lines):
no report is produced. -/
theorem C10_witness :
    read_file_to_dfs ⟨"n.csv", .ok [],
        .ok (1, ⟨["a"], [[some "1"], [some "2"], [some "3"]]⟩)⟩
      = .ok ([("csv", ⟨["a"], [[some "1"], [some "2"], [some "3"]]⟩)], []) :=
  (C10_skip_report_guard _ 1 _ (by decide) rfl).2 (by decide)

/-- Claim C6 (confirmed): for a CSV with one header line and data lines of
which `K` are malformed (and hence skipped by the tolerant parse), the
resulting RowSet has `N - 1 - K` rows where `N` is the total physical line
count, and the reader's computed skipped count equals `K`, reported exactly
when `K > 0`. -/
theorem C6_csv_accounting (f : File) (header : List String)
    (lines : List (Option Row))
    (hext : pyExtLower f.path = ".csv")
    (hread : f.csvRead = .ok (csvTotal lines, csvDf header lines)) :
    (csvDf header lines).rows.length = csvTotal lines - 1 - lines.count none ∧
    read_file_to_dfs f
      = .ok ([("csv", csvDf header lines)],
          if 0 < lines.count none then [skipMsg ((lines.count none : Int))] else []) := by
  have hlen := filterMap_id_length lines
  have hrows : (csvDf header lines).rows.length = lines.length - lines.count none := by
    simp only [csvDf]
    omega
  have hcle : lines.count none ≤ lines.length := by omega
  constructor
  · simp only [csvTotal]
    omega
  · have hskip : ((csvTotal lines : Int) - ((csvDf header lines).rows.length : Int) - 1)
        = ((lines.count none : Int)) := by
      simp only [csvTotal]
      omega
    have hbranch : read_file_to_dfs f
        = .ok ([("csv", csvDf header lines)],
            if ((csvTotal lines : Int) - ((csvDf header lines).rows.length : Int) - 1) > 0
            then [skipMsg ((csvTotal lines : Int) - ((csvDf header lines).rows.length : Int) - 1)]
            else []) := by
      simp only [read_file_to_dfs, hext]
      rw [hread]
      rfl
    rw [hbranch, hskip]
    by_cases hk : 0 < lines.count none
    · rw [if_pos (by exact_mod_cast hk), if_pos hk]
    · rw [if_neg (by omega), if_neg hk]

/-- Claim C6 witness: four physical lines (header plus three data lines),
one malformed: two rows parsed and a skipped count of one reported. -/
theorem C6_witness :
    (csvDf ["codigo", "amount"]
        [some [some "a", some "10"], none, some [some "b", some "5"]]).rows.length
      = csvTotal [some [some "a", some "10"], none, some [some "b", some "5"]] - 1
          - ([some [some "a", some "10"], none,
              some [some "b", some "5"]] : List (Option Row)).count none ∧
    read_file_to_dfs ⟨"orders.csv", .ok [],
        .ok (csvTotal [some [some "a", some "10"], none, some [some "b", some "5"]],
             csvDf ["codigo", "amount"]
               [some [some "a", some "10"], none, some [some "b", some "5"]])⟩
      = .ok ([("csv", csvDf ["codigo", "amount"]
               [some [some "a", some "10"], none, some [some "b", some "5"]])],
          if 0 < ([some [some "a", some "10"], none,
                   some [some "b", some "5"]] : List (Option Row)).count none
          then [skipMsg ((([some [some "a", some "10"], none,
                   some [some "b", some "5"]] : List (Option Row)).count none : Int))]
          else []) :=
  C6_csv_accounting _ _ _ (by decide) rfl
